import Mathlib

/-!
Shallow embedding of the time-series bucket catalog described by the
repository's specification and exercised by
`src/mongo/db/timeseries/bucket_catalog_test.cpp`.  The implementation file
(`bucket_catalog.cpp` / `bucket_catalog.h`) is not part of the source tree;
only its unit tests are.  The definitions below are therefore modelled from
the specification's description of the data model (spec §3) and the
component contracts (spec §4), with the test file fixing the observable
behaviour at concrete inputs.  Concurrency is embedded sequentially: each
catalog operation is a state transformer on an explicit `Catalog` value, and
the blocking behaviour of `clear` is split into an explicit
request/resume pair (`clearStart` / `clearBucket`) so that the
"blocks until finish" ordering is a statement about the order of these
steps in a trace.
-/

namespace BC

/-- Modelled from the spec: a namespace identifier, a (database, collection)
pair, the key space consumed from the surrounding system (spec §1, §6). -/
structure NamespaceString where
  db : String
  coll : String
deriving DecidableEq, Repr

/-- Modelled from the spec: the fragment of BSON values the catalog needs in
order to normalize metadata-group values.  Absence of the metadata field is
normalized to `null`, which is distinct from the empty document (spec §4.1,
§8: "no metadata" is represented distinctly from empty-document metadata). -/
inductive BsonVal where
  | null
  | str (s : String)
  | emptyDoc
  | int (n : Int)
deriving DecidableEq, Repr

/-- Modelled from the spec: a single record (measurement) is a flat list of
(field name, value) pairs; only field names and the metadata field's value
are observable through the catalog's interface. -/
abbrev Measurement := List (String × BsonVal)

/-- Modelled from the spec: the distinguished "concurrent invalidation"
failure delivered to batches aborted by a clear (spec §7, taxonomy (2)). -/
inductive ErrorCode where
  | TimeseriesBucketCleared
deriving DecidableEq, Repr

/-- Modelled from the spec: the shared result of a batch, success of the
physical write or a specific failure (spec §3, WriteBatch attributes). -/
inductive CommitResult where
  | ok
  | err (e : ErrorCode)
deriving DecidableEq, Repr

/-- Modelled from the spec: the WriteBatch state (spec §3): the bucket it
targets, the records contributed, the single-assignment commit-rights flag,
the `active`, `prepared` and `finished` flags, the committed-count snapshot
taken at prepare time, the new-field set computed at prepare time, and the
shared result set at finish time.  Contributors hold the `batchId`; all
observations go through the catalog state, which models the shared handle. -/
structure WriteBatch where
  batchId : Nat
  bucketId : Nat
  ns : NamespaceString
  measurements : List Measurement
  commitRights : Bool
  active : Bool
  prepared : Bool
  finished : Bool
  numPreviouslyCommittedMeasurements : Nat
  newFieldNamesToBeInserted : List String
  result : Option CommitResult
deriving DecidableEq, Repr

/-- Modelled from the spec: the Bucket state (spec §3): identity, key
(namespace and normalized metadata-group value, together with the
collection's configured metadata field name used to render `getMetadata`),
the set of field names already known to be present, and the count of records
committed so far. -/
structure Bucket where
  bucketId : Nat
  ns : NamespaceString
  metaField : Option String
  metadata : BsonVal
  fieldNames : List String
  numCommittedMeasurements : Nat
deriving DecidableEq, Repr

/-- Modelled from the spec: the Catalog state (spec §3): the live buckets,
the (namespace, metadata-group) → bucket lookup map (`openBuckets`), every
batch ever created (batches stay observable through contributor handles
after they finish), a fresh-identifier counter, and the per-namespace
`numWaits` statistic (spec §2, stats collector). -/
structure Catalog where
  buckets : List Bucket
  openBuckets : List ((NamespaceString × BsonVal) × Nat)
  batches : List WriteBatch
  nextId : Nat
  numWaitsStats : List (NamespaceString × Nat)
deriving DecidableEq, Repr

/-- Modelled from the spec: the catalog before any insert. -/
def emptyCatalog : Catalog :=
  { buckets := [], openBuckets := [], batches := [], nextId := 0,
    numWaitsStats := [] }

/-- Lookup of a bucket id in the (namespace, metadata) lookup map. -/
def lookupOpen : List ((NamespaceString × BsonVal) × Nat) →
    NamespaceString × BsonVal → Option Nat
  | [], _ => none
  | kv :: rest, key => if kv.1 = key then some kv.2 else lookupOpen rest key

/-- Lookup of a live bucket by id. -/
def findBucket : List Bucket → Nat → Option Bucket
  | [], _ => none
  | b :: rest, bid => if b.bucketId = bid then some b else findBucket rest bid

/-- Lookup of a batch by id. -/
def findBatch : List WriteBatch → Nat → Option WriteBatch
  | [], _ => none
  | b :: rest, bid => if b.batchId = bid then some b else findBatch rest bid

/-- Modelled from the spec: the bucket's currently-open batch is the unique
batch of that bucket still accepting contributors (spec §3: a reference to
the currently-open WriteBatch, if any; `active` true while accepting). -/
def findActiveBatch : List WriteBatch → Nat → Option WriteBatch
  | [], _ => none
  | b :: rest, bid =>
      if b.bucketId = bid ∧ b.active then some b else findActiveBatch rest bid

/-- Replace a batch (shared by the catalog and all contributor handles) by
an updated value. -/
def setBatch (l : List WriteBatch) (old b : WriteBatch) : List WriteBatch :=
  l.map fun x => if x = old then b else x

/-- Replace a bucket by an updated value. -/
def setBucket (l : List Bucket) (old b : Bucket) : List Bucket :=
  l.map fun x => if x = old then b else x

/-- Modelled from the spec: normalization of the metadata-group value
(spec §4.1): the collection's metadata field is looked up in the record;
absence of the field (or no configured metadata field) is its own group,
rendered as `null`. -/
def normalizeMeta (metaField : Option String) (m : Measurement) : BsonVal :=
  match metaField with
  | none => BsonVal.null
  | some f =>
    match lookupField m f with
    | some v => v
    | none => BsonVal.null
where
  /-- First value bound to the given field name in the record. -/
  lookupField : Measurement → String → Option BsonVal
    | [], _ => none
    | kv :: rest, f => if kv.1 = f then some kv.2 else lookupField rest f

/-- Field names of one record, appended to an accumulator without
duplicates, preserving first-occurrence order. -/
def collectFields : List String → Measurement → List String
  | acc, [] => acc
  | acc, kv :: rest =>
      collectFields (if kv.1 ∈ acc then acc else acc ++ [kv.1]) rest

/-- Modelled from the spec: the deduplicated field-name set of a batch's
records, in first-occurrence order. -/
def batchFieldNames (ms : List Measurement) : List String :=
  ms.foldl collectFields []

/-- Modelled from the spec: the number of records committed to, or still
pending in unfinished batches of, the given bucket — the "total
committed-or-pending count" of spec §4.1. -/
def bucketTotalCount (c : Catalog) (bid : Nat) : Nat :=
  (match findBucket c.buckets bid with
   | some b => b.numCommittedMeasurements
   | none => 0) +
  (c.batches.foldl
    (fun acc b =>
      if b.bucketId = bid ∧ ¬ b.finished then acc + b.measurements.length
      else acc) 0)

/-- Removal of a key from the lookup map. -/
def removeOpenKey : List ((NamespaceString × BsonVal) × Nat) →
    NamespaceString × BsonVal → List ((NamespaceString × BsonVal) × Nat)
  | [], _ => []
  | kv :: rest, key =>
      if kv.1 = key then removeOpenKey rest key
      else kv :: removeOpenKey rest key

/-- Removal of every entry pointing at a bucket from the lookup map. -/
def removeOpenBucket : List ((NamespaceString × BsonVal) × Nat) → Nat →
    List ((NamespaceString × BsonVal) × Nat)
  | [], _ => []
  | kv :: rest, bid =>
      if kv.2 = bid then removeOpenBucket rest bid
      else kv :: removeOpenBucket rest bid

/-- Removal of a bucket from the live-bucket set. -/
def removeBucket : List Bucket → Nat → List Bucket
  | [], _ => []
  | b :: rest, bid =>
      if b.bucketId = bid then removeBucket rest bid
      else b :: removeBucket rest bid

/-- Modelled from the spec: retirement of a full bucket (spec §4.1): if the
bucket's total committed-or-pending count has reached the configured
maximum, the bucket is removed from the lookup map so the next insert for
the same key opens a brand-new bucket. -/
def retireIfFull (c : Catalog) (key : NamespaceString × BsonVal) (bid : Nat)
    (maxRecords : Nat) : Catalog :=
  if maxRecords ≤ bucketTotalCount c bid then
    { c with openBuckets := removeOpenKey c.openBuckets key }
  else c

/-- Modelled from the spec: `Catalog.insert` (spec §4.1): normalizes the
metadata-group value, locates or creates the bucket for the key, joins the
bucket's open active batch when one exists, otherwise opens a new batch
(and a new bucket when the key has none), appends the record, and retires
the bucket from the lookup map when full.  Returns the new catalog state
and the batch handle (its id). -/
def insert (c : Catalog) (ns : NamespaceString) (metaField : Option String)
    (m : Measurement) (maxRecords : Nat) : Catalog × Nat :=
  let key := (ns, normalizeMeta metaField m)
  match lookupOpen c.openBuckets key with
  | some bid =>
    match findActiveBatch c.batches bid with
    | some batch =>
        let batch' := { batch with measurements := batch.measurements ++ [m] }
        let c' := { c with batches := setBatch c.batches batch batch' }
        (retireIfFull c' key bid maxRecords, batch.batchId)
    | none =>
        let batch : WriteBatch :=
          { batchId := c.nextId, bucketId := bid, ns := ns,
            measurements := [m], commitRights := false, active := true,
            prepared := false, finished := false,
            numPreviouslyCommittedMeasurements := 0,
            newFieldNamesToBeInserted := [], result := none }
        let c' := { c with
          batches := c.batches ++ [batch],
          nextId := c.nextId + 1 }
        (retireIfFull c' key bid maxRecords, batch.batchId)
  | none =>
    let bucket : Bucket :=
      { bucketId := c.nextId, ns := ns, metaField := metaField,
        metadata := key.2, fieldNames := [], numCommittedMeasurements := 0 }
    let batch : WriteBatch :=
      { batchId := c.nextId + 1, bucketId := c.nextId, ns := ns,
        measurements := [m], commitRights := false, active := true,
        prepared := false, finished := false,
        numPreviouslyCommittedMeasurements := 0,
        newFieldNamesToBeInserted := [], result := none }
    let c' : Catalog :=
      { c with
        buckets := c.buckets ++ [bucket],
        openBuckets := c.openBuckets ++ [(key, bucket.bucketId)],
        batches := c.batches ++ [batch],
        nextId := c.nextId + 2 }
    (retireIfFull c' key bucket.bucketId maxRecords, batch.batchId)

/-- Modelled from the spec: `WriteBatch.claimCommitRights` (spec §4.2): a
single-assignment exchange on the batch's commit-rights flag; returns true
exactly when the flag was still unclaimed, and sets it. -/
def claimCommitRights (c : Catalog) (bid : Nat) : Catalog × Bool :=
  match findBatch c.batches bid with
  | some b =>
      if b.commitRights then (c, false)
      else ({ c with batches := setBatch c.batches b { b with commitRights := true } },
            true)
  | none => (c, false)

/-- Modelled from the spec: `Catalog.prepareCommit` (spec §4.3): fatal
invariant failure (`none`) if the caller does not hold commit rights, the
batch is already prepared, or the batch is unknown; otherwise freezes
membership (`active` → false), snapshots the bucket's committed count into
`numPreviouslyCommittedMeasurements`, computes the batch's field names not
already known to the bucket as `newFieldNamesToBeInserted`, and merges them
into the bucket's known-field set. -/
def prepareCommit (c : Catalog) (bid : Nat) : Option Catalog :=
  match findBatch c.batches bid with
  | some b =>
    if b.commitRights ∧ ¬ b.prepared then
      match findBucket c.buckets b.bucketId with
      | some bucket =>
          let newFields :=
            (batchFieldNames b.measurements).filter
              fun f => ¬ f ∈ bucket.fieldNames
          let b' := { b with
            active := false,
            prepared := true,
            numPreviouslyCommittedMeasurements :=
              bucket.numCommittedMeasurements,
            newFieldNamesToBeInserted := newFields }
          let bucket' :=
            { bucket with fieldNames := bucket.fieldNames ++ newFields }
          some { c with
            batches := setBatch c.batches b b',
            buckets := setBucket c.buckets bucket bucket' }
      | none => none
    else none
  | none => none

/-- Modelled from the spec: `Catalog.finish` (spec §4.4): fatal invariant
failure (`none`) if the batch was never prepared or is already finished;
otherwise records the result, marks the batch finished (waking every
waiter, who all observe this same result through the shared handle), and on
success advances the bucket's committed count by the batch's record
count. -/
def finish (c : Catalog) (bid : Nat) (res : CommitResult) : Option Catalog :=
  match findBatch c.batches bid with
  | some b =>
    if b.prepared ∧ ¬ b.finished then
      let b' := { b with finished := true, result := some res }
      let c' := { c with batches := setBatch c.batches b b' }
      match res with
      | CommitResult.ok =>
        match findBucket c.buckets b.bucketId with
        | some bucket =>
            let bucket' := { bucket with
              numCommittedMeasurements :=
                bucket.numCommittedMeasurements + b.measurements.length }
            some { c' with buckets := setBucket c'.buckets bucket bucket' }
        | none => some c'
      | CommitResult.err _ => some c'
    else none
  | none => none

/-- Modelled from the spec: a clear of this bucket must block (spec §4.5):
true when the bucket has a batch that is prepared but not finished. -/
def clearWouldBlock (c : Catalog) (bid : Nat) : Bool :=
  c.batches.any fun b => b.bucketId = bid ∧ b.prepared ∧ ¬ b.finished

/-- Modelled from the spec: abortion of a pending batch by a clear
(spec §4.5, §7): the batch's result is set to the distinguished
"bucket cleared" failure and it is marked finished. -/
def abortBatch (b : WriteBatch) : WriteBatch :=
  { b with
    active := false,
    finished := true,
    result := some (CommitResult.err ErrorCode.TimeseriesBucketCleared) }

/-- Modelled from the spec: completion of a whole-bucket clear (spec §4.5),
applicable once no prepared-but-unfinished batch remains on the bucket:
every batch of the bucket that is not yet prepared and not yet finished is
aborted with the "bucket cleared" failure, and the bucket is removed from
the lookup map and from the live-bucket set. -/
def clearBucket (c : Catalog) (bid : Nat) : Catalog :=
  { c with
    batches := c.batches.map fun b =>
      if b.bucketId = bid ∧ ¬ b.prepared ∧ ¬ b.finished then abortBatch b
      else b,
    buckets := removeBucket c.buckets bid,
    openBuckets := removeOpenBucket c.openBuckets bid }

/-- Increment the namespace's `numWaits` statistic. -/
def bumpNumWaits : List (NamespaceString × Nat) → NamespaceString →
    List (NamespaceString × Nat)
  | [], ns => [(ns, 1)]
  | kv :: rest, ns =>
      if kv.1 = ns then (kv.1, kv.2 + 1) :: rest
      else kv :: bumpNumWaits rest ns

/-- Modelled from the spec: the `numWaits` statistic reported by
`appendExecutionStats` for a namespace (spec §4.6), zero when never
incremented. -/
def getNumWaits (c : Catalog) (ns : NamespaceString) : Nat :=
  match lookupStat c.numWaitsStats ns with
  | some n => n
  | none => 0
where
  lookupStat : List (NamespaceString × Nat) → NamespaceString → Option Nat
    | [], _ => none
    | kv :: rest, ns => if kv.1 = ns then some kv.2 else lookupStat rest ns

/-- Modelled from the spec: the request step of a whole-bucket clear
(spec §4.5): when the bucket has a prepared-but-unfinished batch the caller
blocks — the namespace's `numWaits` statistic is incremented and the flag
`true` is returned, the destructive part being deferred to a later
`clearBucket` step once `finish` has run; otherwise the clear completes
immediately and `false` is returned. -/
def clearStart (c : Catalog) (bid : Nat) : Catalog × Bool :=
  if clearWouldBlock c bid then
    (match findBucket c.buckets bid with
     | some bucket =>
         { c with numWaitsStats := bumpNumWaits c.numWaitsStats bucket.ns }
     | none => c,
     true)
  else (clearBucket c bid, false)

/-- Modelled from the spec: the namespace form of clear (spec §4.5):
applies the whole-bucket clear to every live bucket whose key matches the
namespace. -/
def clearNamespace (c : Catalog) (ns : NamespaceString) : Catalog :=
  (c.buckets.filter fun b => b.ns = ns).foldl
    (fun acc b => clearBucket acc b.bucketId) c

/-- Modelled from the spec: the database form of clear (spec §4.5): applies
the whole-bucket clear to every live bucket whose namespace lies in the
database. -/
def clearDatabase (c : Catalog) (db : String) : Catalog :=
  (c.buckets.filter fun b => b.ns.db = db).foldl
    (fun acc b => clearBucket acc b.bucketId) c

/-- Modelled from the spec: `Catalog.getMetadata` (spec §4.6): the bucket's
stored metadata-group value rendered as a single-field document under the
collection's metadata field name (empty when the collection has no metadata
field configured), or the empty document when the bucket no longer
exists. -/
def getMetadata (c : Catalog) (bid : Nat) : List (String × BsonVal) :=
  match findBucket c.buckets bid with
  | some bucket =>
    match bucket.metaField with
    | none => []
    | some f => [(f, bucket.metadata)]
  | none => []

/-- Observation: the batch's `finished` flag through a contributor handle. -/
def batchFinished (c : Catalog) (bid : Nat) : Bool :=
  match findBatch c.batches bid with
  | some b => b.finished
  | none => false

/-- Observation: the batch's `active` flag. -/
def batchActive (c : Catalog) (bid : Nat) : Bool :=
  match findBatch c.batches bid with
  | some b => b.active
  | none => false

/-- Observation: the batch's commit-rights flag. -/
def batchClaimed (c : Catalog) (bid : Nat) : Bool :=
  match findBatch c.batches bid with
  | some b => b.commitRights
  | none => false

/-- Observation: the batch's shared result. -/
def batchResult (c : Catalog) (bid : Nat) : Option CommitResult :=
  match findBatch c.batches bid with
  | some b => b.result
  | none => none

/-- Observation: the batch's record count. -/
def batchSize (c : Catalog) (bid : Nat) : Nat :=
  match findBatch c.batches bid with
  | some b => b.measurements.length
  | none => 0

/-- Observation: the committed-count snapshot taken at prepare time. -/
def batchNumPrev (c : Catalog) (bid : Nat) : Nat :=
  match findBatch c.batches bid with
  | some b => b.numPreviouslyCommittedMeasurements
  | none => 0

/-- Observation: the new-field set computed at prepare time. -/
def batchNewFields (c : Catalog) (bid : Nat) : List String :=
  match findBatch c.batches bid with
  | some b => b.newFieldNamesToBeInserted
  | none => []

/-- Observation: the bucket a batch targets. -/
def batchBucketId (c : Catalog) (bid : Nat) : Nat :=
  match findBatch c.batches bid with
  | some b => b.bucketId
  | none => 0

/-- Observation: a bucket's committed record count, zero when the bucket no
longer exists. -/
def bucketCommitted (c : Catalog) (bid : Nat) : Nat :=
  match findBucket c.buckets bid with
  | some b => b.numCommittedMeasurements
  | none => 0

/-- Modelled from the spec: the full external interface as a single step
alphabet (spec §6), so that lifetime properties ("across the batch's
lifetime") can be stated over arbitrary sequences of catalog operations. -/
inductive Op where
  | opInsert (ns : NamespaceString) (metaField : Option String)
      (m : Measurement) (maxRecords : Nat)
  | opClaim (batchId : Nat)
  | opPrepare (batchId : Nat)
  | opFinish (batchId : Nat) (res : CommitResult)
  | opClearStart (bucketId : Nat)
  | opClearBucket (bucketId : Nat)
  | opClearNamespace (ns : NamespaceString)
  | opClearDatabase (db : String)

/-- State transformer of one interface operation; the fatal-assertion cases
of `prepareCommit` and `finish` leave the state unchanged. -/
def applyOp (c : Catalog) : Op → Catalog
  | Op.opInsert ns mf m mx => (insert c ns mf m mx).1
  | Op.opClaim bid => (claimCommitRights c bid).1
  | Op.opPrepare bid => (prepareCommit c bid).getD c
  | Op.opFinish bid res => (finish c bid res).getD c
  | Op.opClearStart bid => (clearStart c bid).1
  | Op.opClearBucket bid => clearBucket c bid
  | Op.opClearNamespace ns => clearNamespace c ns
  | Op.opClearDatabase db => clearDatabase c db

/-- Sequential application of a list of interface operations. -/
def applyOps (c : Catalog) : List Op → Catalog
  | [] => c
  | op :: rest => applyOps (applyOp c op) rest

/-- Modelled from the spec: the test fixture's insert-one-then-commit
helper (claim rights, prepare, read the committed-count snapshot, finish
with success); returns the final state and the snapshot observed at
prepare time. -/
def insertOneAndCommit (c : Catalog) (ns : NamespaceString)
    (metaField : Option String) (m : Measurement) (maxRecords : Nat) :
    Catalog × Nat :=
  let r := insert c ns metaField m maxRecords
  let c1 := (claimCommitRights r.1 r.2).1
  match prepareCommit c1 r.2 with
  | some c2 =>
    let n := batchNumPrev c2 r.2
    match finish c2 r.2 CommitResult.ok with
    | some c3 => (c3, n)
    | none => (c2, n)
  | none => (c1, 0)

/-! Basic lookup lemmas. -/

theorem findBatch_eq_id {l : List WriteBatch} {bid : Nat} {b : WriteBatch}
    (h : findBatch l bid = some b) : b.batchId = bid := by
  induction l with
  | nil => simp [findBatch] at h
  | cons x t ih =>
    by_cases hx : x.batchId = bid
    · simp [findBatch, hx] at h
      subst h
      exact hx
    · simp [findBatch, hx] at h
      exact ih h

theorem findBatch_map {f : WriteBatch → WriteBatch}
    (hid : ∀ x, (f x).batchId = x.batchId) (l : List WriteBatch) (bid : Nat) :
    findBatch (l.map f) bid = Option.map f (findBatch l bid) := by
  induction l with
  | nil => simp [findBatch]
  | cons x t ih =>
    by_cases hx : x.batchId = bid
    · simp [findBatch, hx, hid]
    · simp [findBatch, hx, hid, ih]

theorem findBatch_append {l l2 : List WriteBatch} {bid : Nat} {b : WriteBatch}
    (h : findBatch l bid = some b) : findBatch (l ++ l2) bid = some b := by
  induction l with
  | nil => simp [findBatch] at h
  | cons x t ih =>
    by_cases hx : x.batchId = bid
    · simp [findBatch, hx] at h ⊢
      exact h
    · simp [findBatch, hx] at h ⊢
      exact ih h

theorem findBatch_setBatch {l : List WriteBatch} {bid : Nat} {b : WriteBatch}
    (h : findBatch l bid = some b) (b2 : WriteBatch)
    (hb2 : b2.batchId = bid) :
    findBatch (setBatch l b b2) bid = some b2 := by
  induction l with
  | nil => simp [findBatch] at h
  | cons x t ih =>
    by_cases hx : x.batchId = bid
    · simp [findBatch, hx] at h
      subst h
      simp [setBatch, findBatch, hb2]
    · have hxb : ¬ x = b := fun hc => hx (by rw [hc]; exact findBatch_eq_id h)
      simp [findBatch, hx] at h
      simp only [setBatch, List.map_cons]
      simp [findBatch, hxb, hx]
      exact ih h

theorem findBucket_eq_id {l : List Bucket} {bid : Nat} {b : Bucket}
    (h : findBucket l bid = some b) : b.bucketId = bid := by
  induction l with
  | nil => simp [findBucket] at h
  | cons x t ih =>
    by_cases hx : x.bucketId = bid
    · simp [findBucket, hx] at h
      subst h
      exact hx
    · simp [findBucket, hx] at h
      exact ih h

theorem findBucket_setBucket {l : List Bucket} {bid : Nat} {b : Bucket}
    (h : findBucket l bid = some b) (b2 : Bucket)
    (hb2 : b2.bucketId = bid) :
    findBucket (setBucket l b b2) bid = some b2 := by
  induction l with
  | nil => simp [findBucket] at h
  | cons x t ih =>
    by_cases hx : x.bucketId = bid
    · simp [findBucket, hx] at h
      subst h
      simp [setBucket, findBucket, hb2]
    · have hxb : ¬ x = b := fun hc => hx (by rw [hc]; exact findBucket_eq_id h)
      simp [findBucket, hx] at h
      simp only [setBucket, List.map_cons]
      simp [findBucket, hxb, hx]
      exact ih h

theorem findBucket_removeBucket_other {l : List Bucket} {bid tid : Nat}
    {b : Bucket} (h : findBucket l bid = some b) (hne : tid ≠ bid) :
    findBucket (removeBucket l tid) bid = some b := by
  induction l with
  | nil => simp [findBucket] at h
  | cons x t ih =>
    by_cases hx : x.bucketId = bid
    · simp [findBucket, hx] at h
      have hkeep : ¬ (bid = tid) := fun hc => hne hc.symm
      simp [removeBucket, findBucket, hx, hkeep]
      exact h
    · simp [findBucket, hx] at h
      by_cases hk : x.bucketId = tid
      · simp [removeBucket, hk]
        exact ih h
      · simp [removeBucket, hk, findBucket, hx]
        exact ih h

theorem findBucket_removeBucket_self (l : List Bucket) (bid : Nat) :
    findBucket (removeBucket l bid) bid = none := by
  induction l with
  | nil => simp [removeBucket, findBucket]
  | cons x t ih =>
    by_cases hx : x.bucketId = bid
    · simp [removeBucket, hx]
      exact ih
    · simp [removeBucket, hx, findBucket]
      exact ih

/-! Single-assignment of commit rights: the claimed flag of a batch is never
reset by any interface operation, so `claimCommitRights` can return true at
most once across the batch's lifetime. -/

/-- Commit-rights flag of the batch with the given id in a raw batch list. -/
def claimedIn : List WriteBatch → Nat → Bool
  | [], _ => false
  | b :: rest, bid =>
      if b.batchId = bid then b.commitRights else claimedIn rest bid

theorem batchClaimed_eq (c : Catalog) (bid : Nat) :
    batchClaimed c bid = claimedIn c.batches bid := by
  unfold batchClaimed
  induction c.batches with
  | nil => simp [findBatch, claimedIn]
  | cons x t ih =>
    by_cases hx : x.batchId = bid
    · simp [findBatch, claimedIn, hx]
    · simp [findBatch, claimedIn, hx]
      exact ih

theorem claimedIn_map {f : WriteBatch → WriteBatch}
    (hid : ∀ x, (f x).batchId = x.batchId)
    (hr : ∀ x, x.commitRights = true → (f x).commitRights = true)
    {l : List WriteBatch} {bid : Nat} (h : claimedIn l bid = true) :
    claimedIn (l.map f) bid = true := by
  induction l with
  | nil => simp [claimedIn] at h
  | cons x t ih =>
    by_cases hx : x.batchId = bid
    · have hfx : (f x).batchId = bid := by rw [hid]; exact hx
      simp [claimedIn, hx] at h
      simp [claimedIn, hfx]
      exact hr x h
    · have hfx : ¬ (f x).batchId = bid := by rw [hid]; exact hx
      simp [claimedIn, hx] at h
      simp [claimedIn, hfx]
      exact ih h

theorem claimedIn_append {l l2 : List WriteBatch} {bid : Nat}
    (h : claimedIn l bid = true) : claimedIn (l ++ l2) bid = true := by
  induction l with
  | nil => simp [claimedIn] at h
  | cons x t ih =>
    by_cases hx : x.batchId = bid
    · simp [claimedIn, hx] at h ⊢
      exact h
    · simp [claimedIn, hx] at h ⊢
      exact ih h

theorem setBatch_claimed {l : List WriteBatch} {bid : Nat}
    (old b : WriteBatch) (hbid : b.batchId = old.batchId)
    (hbr : old.commitRights = true → b.commitRights = true)
    (h : claimedIn l bid = true) : claimedIn (setBatch l old b) bid = true := by
  refine claimedIn_map ?_ ?_ h
  · intro x
    by_cases hx : x = old
    · simp [hx, hbid]
    · simp [hx]
  · intro x hxr
    by_cases hx : x = old
    · subst hx
      simp [hbr hxr]
    · simp [hx, hxr]

theorem retireIfFull_batches (c : Catalog) (key : NamespaceString × BsonVal)
    (bid mx : Nat) : (retireIfFull c key bid mx).batches = c.batches := by
  unfold retireIfFull
  split <;> rfl

theorem batchClaimed_insert (c : Catalog) (ns : NamespaceString)
    (mf : Option String) (m : Measurement) (mx : Nat) (bid : Nat)
    (h : batchClaimed c bid = true) :
    batchClaimed (insert c ns mf m mx).1 bid = true := by
  rw [batchClaimed_eq] at h ⊢
  unfold insert
  cases hlk : lookupOpen c.openBuckets (ns, normalizeMeta mf m) with
  | some bucketId =>
    cases hab : findActiveBatch c.batches bucketId with
    | some batch =>
      simp only [hlk, hab, retireIfFull_batches]
      exact setBatch_claimed batch _ rfl (fun hx => hx) h
    | none =>
      simp only [hlk, hab, retireIfFull_batches]
      exact claimedIn_append h
  | none =>
    simp only [hlk, retireIfFull_batches]
    exact claimedIn_append h

theorem batchClaimed_claim (c : Catalog) (tid bid : Nat)
    (h : batchClaimed c bid = true) :
    batchClaimed (claimCommitRights c tid).1 bid = true := by
  rw [batchClaimed_eq] at h ⊢
  unfold claimCommitRights
  cases hfb : findBatch c.batches tid with
  | none => simp only [hfb]; exact h
  | some b =>
    by_cases hr : b.commitRights
    · simp only [hfb, if_pos hr]
      exact h
    · simp only [hfb, if_neg hr]
      exact setBatch_claimed b _ rfl (fun _ => rfl) h

theorem batchClaimed_prepare (c : Catalog) (tid bid : Nat)
    (h : batchClaimed c bid = true) :
    batchClaimed ((prepareCommit c tid).getD c) bid = true := by
  rw [batchClaimed_eq] at h ⊢
  unfold prepareCommit
  cases hfb : findBatch c.batches tid with
  | none => simp only [hfb, Option.getD]; exact h
  | some b =>
    by_cases hg : b.commitRights ∧ ¬ b.prepared
    · cases hbk : findBucket c.buckets b.bucketId with
      | none => simp only [hfb, hbk, if_pos hg, Option.getD]; exact h
      | some bucket =>
        simp only [hfb, hbk, if_pos hg, Option.getD]
        exact setBatch_claimed b _ rfl (fun hx => hx) h
    · simp only [hfb, if_neg hg, Option.getD]
      exact h

theorem batchClaimed_finish (c : Catalog) (tid : Nat) (res : CommitResult)
    (bid : Nat) (h : batchClaimed c bid = true) :
    batchClaimed ((finish c tid res).getD c) bid = true := by
  rw [batchClaimed_eq] at h ⊢
  unfold finish
  cases hfb : findBatch c.batches tid with
  | none => simp only [hfb, Option.getD]; exact h
  | some b =>
    by_cases hg : b.prepared ∧ ¬ b.finished
    · have hset := setBatch_claimed b
        { b with finished := true, result := some res } rfl (fun hx => hx) h
      cases res with
      | ok =>
        cases hbk : findBucket c.buckets b.bucketId with
        | none => simp only [hfb, hbk, if_pos hg, Option.getD]; exact hset
        | some bucket =>
          simp only [hfb, hbk, if_pos hg, Option.getD]
          exact hset
      | err e =>
        simp only [hfb, if_pos hg, Option.getD]
        exact hset
    · simp only [hfb, if_neg hg, Option.getD]
      exact h

theorem batchClaimed_clearBucket (c : Catalog) (tid bid : Nat)
    (h : batchClaimed c bid = true) :
    batchClaimed (clearBucket c tid) bid = true := by
  rw [batchClaimed_eq] at h ⊢
  unfold clearBucket
  refine claimedIn_map ?_ ?_ h
  · intro x
    by_cases hx : x.bucketId = tid ∧ x.prepared = false ∧ x.finished = false
    · simp [hx, abortBatch]
    · simp [hx]
  · intro x hxr
    by_cases hx : x.bucketId = tid ∧ x.prepared = false ∧ x.finished = false
    · simp [hx, abortBatch, hxr]
    · simp [hx, hxr]

theorem batchClaimed_clearStart (c : Catalog) (tid bid : Nat)
    (h : batchClaimed c bid = true) :
    batchClaimed (clearStart c tid).1 bid = true := by
  rw [batchClaimed_eq] at h ⊢
  unfold clearStart
  by_cases hb : clearWouldBlock c tid
  · cases hbk : findBucket c.buckets tid with
    | none => simp only [hb, hbk, if_pos]; exact h
    | some bucket => simp only [hb, hbk, if_pos]; exact h
  · simp only [hb, Bool.false_eq_true, if_neg, Bool.not_eq_true]
    rw [← batchClaimed_eq]
    exact batchClaimed_clearBucket c tid bid (by rw [batchClaimed_eq]; exact h)

theorem batchClaimed_foldClear (l : List Bucket) :
    ∀ (c : Catalog) (bid : Nat), batchClaimed c bid = true →
      batchClaimed (l.foldl (fun acc b => clearBucket acc b.bucketId) c) bid =
        true := by
  induction l with
  | nil => intro c bid h; exact h
  | cons x t ih =>
    intro c bid h
    exact ih _ _ (batchClaimed_clearBucket c x.bucketId bid h)

theorem batchClaimed_mono (c : Catalog) (op : Op) (bid : Nat)
    (h : batchClaimed c bid = true) : batchClaimed (applyOp c op) bid = true := by
  cases op with
  | opInsert ns mf m mx => exact batchClaimed_insert c ns mf m mx bid h
  | opClaim tid => exact batchClaimed_claim c tid bid h
  | opPrepare tid => exact batchClaimed_prepare c tid bid h
  | opFinish tid res => exact batchClaimed_finish c tid res bid h
  | opClearStart tid => exact batchClaimed_clearStart c tid bid h
  | opClearBucket tid => exact batchClaimed_clearBucket c tid bid h
  | opClearNamespace ns => exact batchClaimed_foldClear _ c bid h
  | opClearDatabase db => exact batchClaimed_foldClear _ c bid h

theorem batchClaimed_applyOps (ops : List Op) :
    ∀ (c : Catalog) (bid : Nat), batchClaimed c bid = true →
      batchClaimed (applyOps c ops) bid = true := by
  induction ops with
  | nil => intro c bid h; exact h
  | cons op rest ih =>
    intro c bid h
    exact ih _ _ (batchClaimed_mono c op bid h)

theorem claim_true_sets (c : Catalog) (bid : Nat)
    (h : (claimCommitRights c bid).2 = true) :
    batchClaimed (claimCommitRights c bid).1 bid = true := by
  unfold claimCommitRights at h ⊢
  cases hfb : findBatch c.batches bid with
  | none =>
    rw [hfb] at h
    simp at h
  | some b =>
    rw [hfb] at h
    by_cases hr : b.commitRights = true
    · simp [hr] at h
    · have hid := findBatch_eq_id hfb
      have hfind := findBatch_setBatch hfb { b with commitRights := true } hid
      simp [hr, batchClaimed, hfind]

theorem claimed_claim_false (c : Catalog) (bid : Nat)
    (h : batchClaimed c bid = true) : (claimCommitRights c bid).2 = false := by
  unfold batchClaimed at h
  cases hfb : findBatch c.batches bid with
  | none =>
    rw [hfb] at h
    simp at h
  | some b =>
    rw [hfb] at h
    simp at h
    simp [claimCommitRights, hfb, h]

/-! Scenario states for the two-insert coalescing test
(`InsertIntoSameBucket`): a first insert into a fresh catalog, a claim of
commit rights by the first contributor, and a second insert with the same
metadata group. -/

/-- First insert into a fresh catalog. -/
def twoInsertFirst (ns : NamespaceString) (mf : Option String)
    (m1 : Measurement) (mx : Nat) : Catalog × Nat :=
  insert emptyCatalog ns mf m1 mx

/-- The first contributor claims commit rights. -/
def twoInsertClaim (ns : NamespaceString) (mf : Option String)
    (m1 : Measurement) (mx : Nat) : Catalog × Bool :=
  claimCommitRights (twoInsertFirst ns mf m1 mx).1 (twoInsertFirst ns mf m1 mx).2

/-- Second insert with the same metadata group. -/
def twoInsertSecond (ns : NamespaceString) (mf : Option String)
    (m1 m2 : Measurement) (mx : Nat) : Catalog × Nat :=
  insert (twoInsertClaim ns mf m1 mx).1 ns mf m2 mx

/-- C1: two inserts into the same namespace with equal metadata-group value
and no intervening bucket-full or clear return the same WriteBatch handle
(witnessed from a fresh catalog with capacity at least two, the second
insert arriving after the first contributor claimed commit rights and
receiving the very same batch while its own claim fails), and commit rights
are a single-assignment exchange across the batch's lifetime: once any
claim has returned true, every later claim on that batch returns false
after any sequence of interface operations whatsoever. -/
theorem insert_same_bucket_single_commit_rights :
    (∀ (ns : NamespaceString) (mf : Option String) (m1 m2 : Measurement)
       (mx : Nat), 2 ≤ mx → normalizeMeta mf m2 = normalizeMeta mf m1 →
       (twoInsertSecond ns mf m1 m2 mx).2 = (twoInsertFirst ns mf m1 mx).2 ∧
       (twoInsertClaim ns mf m1 mx).2 = true ∧
       (claimCommitRights (twoInsertSecond ns mf m1 m2 mx).1
          (twoInsertSecond ns mf m1 m2 mx).2).2 = false) ∧
    (∀ (c : Catalog) (bid : Nat) (ops : List Op),
       (claimCommitRights c bid).2 = true →
       (claimCommitRights (applyOps (claimCommitRights c bid).1 ops) bid).2 =
         false) := by
  constructor
  · intro ns mf m1 m2 mx hmx hmeta
    have h1 : ¬ (mx ≤ 1) := by omega
    refine ⟨?_, ?_, ?_⟩
    · by_cases h2 : mx ≤ 2 <;>
        simp [twoInsertSecond, twoInsertClaim, twoInsertFirst, insert,
          emptyCatalog, lookupOpen, findActiveBatch, findBatch,
          claimCommitRights, setBatch, retireIfFull, bucketTotalCount,
          findBucket, removeOpenKey, hmeta, h1, h2, List.foldl]
    · simp [twoInsertClaim, twoInsertFirst, insert, emptyCatalog, lookupOpen,
        findActiveBatch, findBatch, claimCommitRights, setBatch, retireIfFull,
        bucketTotalCount, findBucket, removeOpenKey, h1, List.foldl]
    · by_cases h2 : mx ≤ 2 <;>
        simp [twoInsertSecond, twoInsertClaim, twoInsertFirst, insert,
          emptyCatalog, lookupOpen, findActiveBatch, findBatch,
          claimCommitRights, setBatch, retireIfFull, bucketTotalCount,
          findBucket, removeOpenKey, hmeta, h1, h2, List.foldl]
  · intro c bid ops h
    exact claimed_claim_false _ _
      (batchClaimed_applyOps ops _ bid (claim_true_sets c bid h))

/-- Witness for C1: concrete namespace, metadata field, measurements and
capacity; the empty operation sequence for the lifetime clause. -/
theorem insert_same_bucket_single_commit_rights_witness :
    ((twoInsertSecond ⟨"db1", "t1"⟩ (some "meta") [("time", BsonVal.int 0)]
        [("time", BsonVal.int 1)] 10).2 =
      (twoInsertFirst ⟨"db1", "t1"⟩ (some "meta")
        [("time", BsonVal.int 0)] 10).2) ∧
    (claimCommitRights
        (applyOps
          (claimCommitRights
            (twoInsertFirst ⟨"db1", "t1"⟩ (some "meta")
              [("time", BsonVal.int 0)] 10).1
            (twoInsertFirst ⟨"db1", "t1"⟩ (some "meta")
              [("time", BsonVal.int 0)] 10).2).1 [])
        (twoInsertFirst ⟨"db1", "t1"⟩ (some "meta")
          [("time", BsonVal.int 0)] 10).2).2 = false :=
  ⟨(insert_same_bucket_single_commit_rights.1 ⟨"db1", "t1"⟩ (some "meta")
      [("time", BsonVal.int 0)] [("time", BsonVal.int 1)] 10 (by decide)
      (by decide)).1,
   insert_same_bucket_single_commit_rights.2 _ _ [] (by decide)⟩

/-- C2: after `finish batch result` on a prepared, unfinished batch, the
shared handle (held by every contributor to the batch, all of whom observe
the batch through the same id) reports `finished` and reports exactly the
result value passed to `finish`, whatever that value is. -/
theorem finish_fans_out_result_to_all (c : Catalog) (bid : Nat)
    (b : WriteBatch) (hfb : findBatch c.batches bid = some b)
    (hp : b.prepared = true) (hf : b.finished = false) (res : CommitResult) :
    ∃ c', finish c bid res = some c' ∧ batchFinished c' bid = true ∧
      batchResult c' bid = some res := by
  have hid := findBatch_eq_id hfb
  have hfind := findBatch_setBatch hfb
    { b with finished := true, result := some res } hid
  have hmain : ∀ c2 : Catalog,
      c2.batches = setBatch c.batches b
        { b with finished := true, result := some res } →
      batchFinished c2 bid = true ∧ batchResult c2 bid = some res := by
    intro c2 hc2
    unfold batchFinished batchResult
    rw [hc2, hfind]
    exact ⟨rfl, rfl⟩
  unfold finish
  simp only [hfb]
  rw [if_pos (show b.prepared = true ∧ ¬ b.finished = true from
    ⟨hp, by simp [hf]⟩)]
  cases res with
  | ok =>
    cases hbk : findBucket c.buckets b.bucketId with
    | some bucket => exact ⟨_, rfl, hmain _ rfl⟩
    | none => exact ⟨_, rfl, hmain _ rfl⟩
  | err e => exact ⟨_, rfl, hmain _ rfl⟩

/-- Concrete state with one prepared, unfinished single-record batch
(id 1) in a fresh catalog. -/
def preparedOneState : Catalog :=
  (prepareCommit (claimCommitRights
    (insert emptyCatalog ⟨"db1", "t1"⟩ (some "meta")
      [("time", BsonVal.int 0)] 10).1 1).1 1).getD emptyCatalog

/-- Witness for C2: a prepared single-record batch in a fresh catalog,
finished with success. -/
theorem finish_fans_out_result_to_all_witness :
    ∃ c', finish preparedOneState 1 CommitResult.ok = some c' ∧
      batchFinished c' 1 = true ∧ batchResult c' 1 = some CommitResult.ok :=
  finish_fans_out_result_to_all preparedOneState 1
    ((findBatch preparedOneState.batches 1).get (by decide))
    (by decide) (by decide) (by decide) CommitResult.ok

/-! Scenario states for the outstanding-insert clear test
(`ClearBucketWithOutstandingInserts`) and for the insert-between-prepare-
and-finish test: a first batch claimed and prepared, then a second insert
for the same key while the first batch is still in flight. -/

/-- First insert claimed and prepared; returns the state and the first
batch's id. -/
def prepFirst (ns : NamespaceString) (mf : Option String) (m1 : Measurement)
    (mx : Nat) : Catalog × Nat :=
  let r1 := insert emptyCatalog ns mf m1 mx
  ((prepareCommit (claimCommitRights r1.1 r1.2).1 r1.2).getD emptyCatalog,
   r1.2)

/-- Second insert for the same key while the first batch is prepared but
unfinished. -/
def secondInsert (ns : NamespaceString) (mf : Option String)
    (m1 m2 : Measurement) (mx : Nat) : Catalog × Nat :=
  insert (prepFirst ns mf m1 mx).1 ns mf m2 mx

/-- C3: clearing a bucket that has a prepared-but-unfinished batch blocks:
the request step reports blocking, bumps the namespace's numWaits from 0
to exactly 1, and touches no batch; once finish has run for the prepared
batch the clear no longer blocks, and the resumed clear aborts the
bucket's other not-yet-prepared batch with the bucket-cleared failure,
leaving numWaits at 1. -/
theorem clear_blocks_on_prepared_then_aborts (ns : NamespaceString)
    (mf : Option String) (m1 m2 : Measurement) (mx : Nat) (hmx : 3 ≤ mx)
    (hmeta : normalizeMeta mf m2 = normalizeMeta mf m1) :
    (secondInsert ns mf m1 m2 mx).2 ≠ (prepFirst ns mf m1 mx).2 ∧
    getNumWaits (secondInsert ns mf m1 m2 mx).1 ns = 0 ∧
    (clearStart (secondInsert ns mf m1 m2 mx).1
      (batchBucketId (secondInsert ns mf m1 m2 mx).1
        (prepFirst ns mf m1 mx).2)).2 = true ∧
    getNumWaits (clearStart (secondInsert ns mf m1 m2 mx).1
      (batchBucketId (secondInsert ns mf m1 m2 mx).1
        (prepFirst ns mf m1 mx).2)).1 ns = 1 ∧
    batchFinished (clearStart (secondInsert ns mf m1 m2 mx).1
      (batchBucketId (secondInsert ns mf m1 m2 mx).1
        (prepFirst ns mf m1 mx).2)).1 (secondInsert ns mf m1 m2 mx).2 =
      false ∧
    clearWouldBlock ((finish (clearStart (secondInsert ns mf m1 m2 mx).1
      (batchBucketId (secondInsert ns mf m1 m2 mx).1
        (prepFirst ns mf m1 mx).2)).1 (prepFirst ns mf m1 mx).2
        CommitResult.ok).getD emptyCatalog)
      (batchBucketId (secondInsert ns mf m1 m2 mx).1
        (prepFirst ns mf m1 mx).2) = false ∧
    batchFinished (clearBucket ((finish (clearStart
      (secondInsert ns mf m1 m2 mx).1
      (batchBucketId (secondInsert ns mf m1 m2 mx).1
        (prepFirst ns mf m1 mx).2)).1 (prepFirst ns mf m1 mx).2
        CommitResult.ok).getD emptyCatalog)
      (batchBucketId (secondInsert ns mf m1 m2 mx).1
        (prepFirst ns mf m1 mx).2)) (secondInsert ns mf m1 m2 mx).2 =
      true ∧
    batchResult (clearBucket ((finish (clearStart
      (secondInsert ns mf m1 m2 mx).1
      (batchBucketId (secondInsert ns mf m1 m2 mx).1
        (prepFirst ns mf m1 mx).2)).1 (prepFirst ns mf m1 mx).2
        CommitResult.ok).getD emptyCatalog)
      (batchBucketId (secondInsert ns mf m1 m2 mx).1
        (prepFirst ns mf m1 mx).2)) (secondInsert ns mf m1 m2 mx).2 =
      some (CommitResult.err ErrorCode.TimeseriesBucketCleared) ∧
    getNumWaits (clearBucket ((finish (clearStart
      (secondInsert ns mf m1 m2 mx).1
      (batchBucketId (secondInsert ns mf m1 m2 mx).1
        (prepFirst ns mf m1 mx).2)).1 (prepFirst ns mf m1 mx).2
        CommitResult.ok).getD emptyCatalog)
      (batchBucketId (secondInsert ns mf m1 m2 mx).1
        (prepFirst ns mf m1 mx).2)) ns = 1 := by
  have h1 : ¬ (mx ≤ 1) := by omega
  have h2 : ¬ (mx ≤ 2) := by omega
  refine ⟨?_, ?_, ?_, ?_, ?_, ?_, ?_, ?_, ?_⟩ <;>
    simp [secondInsert, prepFirst, insert, emptyCatalog, lookupOpen,
      findActiveBatch, findBatch, findBucket, claimCommitRights,
      prepareCommit, finish, setBatch, setBucket, retireIfFull,
      bucketTotalCount, removeOpenKey, clearStart, clearWouldBlock,
      clearBucket, abortBatch, removeBucket, removeOpenBucket, bumpNumWaits,
      getNumWaits, getNumWaits.lookupStat, batchBucketId, batchFinished,
      batchResult, batchFieldNames, collectFields, hmeta, h1, h2,
      List.foldl, List.any]

/-! Concrete inputs used by the claim witnesses, mirroring the test
fixture's three collections and single-field measurements. -/

/-- Concrete namespace (database A, collection A). -/
def nsA : NamespaceString := ⟨"dbA", "collA"⟩

/-- Concrete namespace (database A, collection B). -/
def nsB : NamespaceString := ⟨"dbA", "collB"⟩

/-- Concrete namespace (database B, collection A). -/
def nsC : NamespaceString := ⟨"dbB", "collA"⟩

/-- Concrete time-only measurement. -/
def mTime : Measurement := [("time", BsonVal.int 0)]

/-- Second concrete time-only measurement. -/
def mTime2 : Measurement := [("time", BsonVal.int 1)]

/-- Concrete metadata-field configuration. -/
def mfMeta : Option String := some "meta"

/-- Witness for C3: the blocking step of the clear reports blocking at the
concrete scenario instance. -/
theorem clear_blocks_on_prepared_then_aborts_witness :
    (clearStart (secondInsert nsA mfMeta mTime mTime2 10).1
      (batchBucketId (secondInsert nsA mfMeta mTime mTime2 10).1
        (prepFirst nsA mfMeta mTime 10).2)).2 = true :=
  (clear_blocks_on_prepared_then_aborts nsA mfMeta mTime mTime2 10
    (by decide) (by decide)).2.2.1

/-- C4: the committed-count snapshot taken by `prepareCommit` equals
exactly the bucket's committed count at that moment, for every batch whose
caller holds commit rights on a not-yet-prepared batch of a live bucket;
and across sequential single-record commits to the same bucket the
observed snapshots accumulate 0, then 1, then 2. -/
theorem numPrev_equals_committed_and_accumulates :
    (∀ (c : Catalog) (bid : Nat) (b : WriteBatch) (bucket : Bucket),
       findBatch c.batches bid = some b → b.commitRights = true →
       b.prepared = false →
       findBucket c.buckets b.bucketId = some bucket →
       ∃ c', prepareCommit c bid = some c' ∧
         batchNumPrev c' bid = bucket.numCommittedMeasurements) ∧
    ((insertOneAndCommit emptyCatalog nsA mfMeta mTime 10).2 = 0 ∧
     (insertOneAndCommit
       (insertOneAndCommit emptyCatalog nsA mfMeta mTime 10).1
       nsA mfMeta mTime2 10).2 = 1 ∧
     (insertOneAndCommit (insertOneAndCommit
       (insertOneAndCommit emptyCatalog nsA mfMeta mTime 10).1
       nsA mfMeta mTime2 10).1 nsA mfMeta mTime 10).2 = 2) := by
  constructor
  · intro c bid b bucket hfb hr hnp hbk
    have hid := findBatch_eq_id hfb
    have hfind := findBatch_setBatch hfb
      { b with
        active := false,
        prepared := true,
        numPreviouslyCommittedMeasurements := bucket.numCommittedMeasurements,
        newFieldNamesToBeInserted :=
          (batchFieldNames b.measurements).filter
            fun f => ¬ f ∈ bucket.fieldNames } hid
    have hmain : ∀ c2 : Catalog,
        c2.batches = setBatch c.batches b
          { b with
            active := false,
            prepared := true,
            numPreviouslyCommittedMeasurements :=
              bucket.numCommittedMeasurements,
            newFieldNamesToBeInserted :=
              (batchFieldNames b.measurements).filter
                fun f => ¬ f ∈ bucket.fieldNames } →
        batchNumPrev c2 bid = bucket.numCommittedMeasurements := by
      intro c2 hc2
      unfold batchNumPrev
      rw [hc2, hfind]
    unfold prepareCommit
    simp only [hfb]
    rw [if_pos (show b.commitRights = true ∧ ¬ b.prepared = true from
      ⟨hr, by simp [hnp]⟩)]
    simp only [hbk]
    exact ⟨_, rfl, hmain _ rfl⟩
  · exact ⟨by decide, by decide, by decide⟩

/-- Concrete state with a claimed, not yet prepared single-record batch
(id 1) in a fresh catalog. -/
def claimedOneState : Catalog :=
  (claimCommitRights (insert emptyCatalog nsA mfMeta mTime 10).1 1).1

/-- Witness for C4: the snapshot equals the bucket's committed count at a
concrete claimed batch. -/
theorem numPrev_equals_committed_and_accumulates_witness :
    ∃ c', prepareCommit claimedOneState 1 = some c' ∧
      batchNumPrev c' 1 =
        ((findBucket claimedOneState.buckets 0).get
          (by decide)).numCommittedMeasurements :=
  numPrev_equals_committed_and_accumulates.1 claimedOneState 1
    ((findBatch claimedOneState.batches 1).get (by decide))
    ((findBucket claimedOneState.buckets 0).get (by decide))
    (by decide) (by decide) (by decide) (by decide)

/-! Scenario states for the new-field-tracking test
(`CommitReturnsNewFields`), with no configured metadata field and a
maximum of 4 records per bucket. -/

/-- First commit: fields time and a. -/
def fieldScene1 : Catalog × Nat :=
  insertOneAndCommit emptyCatalog nsA none
    [("time", BsonVal.int 0), ("a", BsonVal.int 0)] 4

/-- Second commit: same fields. -/
def fieldScene2 : Catalog × Nat :=
  insertOneAndCommit fieldScene1.1 nsA none
    [("time", BsonVal.int 0), ("a", BsonVal.int 1)] 4

/-- Third commit: adds field b. -/
def fieldScene3 : Catalog × Nat :=
  insertOneAndCommit fieldScene2.1 nsA none
    [("time", BsonVal.int 0), ("a", BsonVal.int 2), ("b", BsonVal.int 2)] 4

/-- Fourth commit: fills the bucket to its maximum of 4 records. -/
def fieldScene4 : Catalog × Nat :=
  insertOneAndCommit fieldScene3.1 nsA none
    [("time", BsonVal.int 0), ("a", BsonVal.int 3)] 4

/-- Fifth insert: lands in a brand-new bucket. -/
def fieldScene5 : Catalog × Nat :=
  insert fieldScene4.1 nsA none
    [("time", BsonVal.int 0), ("a", BsonVal.int 4)] 4

/-- Fifth insert committed. -/
def fieldScene5c : Catalog × Nat :=
  insertOneAndCommit fieldScene4.1 nsA none
    [("time", BsonVal.int 0), ("a", BsonVal.int 4)] 4

/-- C5: new-field tracking per bucket at capacity 4: the first commit of a
record with fields time and a reports exactly the new-field set time, a;
a second commit with the same fields reports the empty set; a commit
adding field b reports exactly b; and once the bucket reaches the maximum
record count, the next insert for the same key opens a brand-new bucket
whose first commit again reports the full field set time, a. -/
theorem new_field_tracking_restarts_on_rollover :
    fieldScene1.2 = 0 ∧
    (batchNewFields fieldScene1.1 1).length = 2 ∧
    "time" ∈ batchNewFields fieldScene1.1 1 ∧
    "a" ∈ batchNewFields fieldScene1.1 1 ∧
    batchNewFields fieldScene2.1 2 = [] ∧
    (batchNewFields fieldScene3.1 3).length = 1 ∧
    "b" ∈ batchNewFields fieldScene3.1 3 ∧
    batchNewFields fieldScene4.1 4 = [] ∧
    batchBucketId fieldScene5.1 fieldScene5.2 ≠
      batchBucketId fieldScene5.1 1 ∧
    fieldScene5c.2 = 0 ∧
    (batchNewFields fieldScene5c.1 fieldScene5.2).length = 2 ∧
    "time" ∈ batchNewFields fieldScene5c.1 fieldScene5.2 ∧
    "a" ∈ batchNewFields fieldScene5c.1 fieldScene5.2 := by
  decide

/-- C6: completing a clear of a bucket aborts every batch of that bucket
that is still open (not yet prepared) and not finished: the batch is
marked finished and its shared result, observed identically by all of its
waiters through the shared handle, is the distinguished bucket-cleared
failure. -/
theorem clear_aborts_open_uncommitted_batches (c : Catalog) (tid bid : Nat)
    (b : WriteBatch) (hfb : findBatch c.batches bid = some b)
    (hbuck : b.bucketId = tid) (hnp : b.prepared = false)
    (hnf : b.finished = false) :
    batchFinished (clearBucket c tid) bid = true ∧
    batchResult (clearBucket c tid) bid =
      some (CommitResult.err ErrorCode.TimeseriesBucketCleared) := by
  have hid : ∀ x : WriteBatch,
      ((fun x => if x.bucketId = tid ∧ ¬ x.prepared ∧ ¬ x.finished
          then abortBatch x else x) x).batchId = x.batchId := by
    intro x
    by_cases hx : x.bucketId = tid ∧ ¬ x.prepared ∧ ¬ x.finished
    · simp only [if_pos hx]
      rfl
    · simp only [if_neg hx]
  have hmap := findBatch_map hid c.batches bid
  unfold clearBucket batchFinished batchResult
  rw [hmap, hfb]
  simp [hbuck, hnp, hnf, abortBatch]

/-- Witness for C6: clearing bucket 0 in the concrete
prepared-plus-outstanding-insert state aborts the second (open) batch. -/
theorem clear_aborts_open_uncommitted_batches_witness :
    batchFinished
      (clearBucket (secondInsert nsA mfMeta mTime mTime2 10).1 0)
      (secondInsert nsA mfMeta mTime mTime2 10).2 = true ∧
    batchResult
      (clearBucket (secondInsert nsA mfMeta mTime mTime2 10).1 0)
      (secondInsert nsA mfMeta mTime mTime2 10).2 =
      some (CommitResult.err ErrorCode.TimeseriesBucketCleared) :=
  clear_aborts_open_uncommitted_batches
    (secondInsert nsA mfMeta mTime mTime2 10).1 0
    (secondInsert nsA mfMeta mTime mTime2 10).2
    ((findBatch (secondInsert nsA mfMeta mTime mTime2 10).1.batches
      (secondInsert nsA mfMeta mTime mTime2 10).2).get (by decide))
    (by decide) (by decide) (by decide) (by decide)

/-- Scenario: two inserts with distinct metadata-group values into the
same namespace of a fresh catalog; returns the final state and both batch
ids. -/
def twoInsertDistinct (ns : NamespaceString) (mf : Option String)
    (m1 m2 : Measurement) (mx : Nat) : Catalog × Nat × Nat :=
  let r1 := insert emptyCatalog ns mf m1 mx
  let r2 := insert r1.1 ns mf m2 mx
  (r2.1, r1.2, r2.2)

/-- C7: distinct metadata-group values for the same namespace produce
distinct buckets; `getMetadata` on a live bucket returns exactly its
stored metadata-group value under the collection's metadata field name;
absence of the metadata field normalizes to the null group value, which is
distinct from the empty-document value, while a present value (the empty
document included) is kept as the group value; and `getMetadata` on a
bucket id whose bucket no longer exists after a clear returns the empty
document rather than an error. -/
theorem metadata_distinct_buckets_lookup_and_missing :
    (∀ (ns : NamespaceString) (mf : Option String) (m1 m2 : Measurement)
       (mx : Nat), 2 ≤ mx → normalizeMeta mf m1 ≠ normalizeMeta mf m2 →
       batchBucketId (twoInsertDistinct ns mf m1 m2 mx).1
           (twoInsertDistinct ns mf m1 m2 mx).2.1 ≠
         batchBucketId (twoInsertDistinct ns mf m1 m2 mx).1
           (twoInsertDistinct ns mf m1 m2 mx).2.2) ∧
    (∀ (ns : NamespaceString) (f : String) (m1 m2 : Measurement) (mx : Nat),
       2 ≤ mx → normalizeMeta (some f) m1 ≠ normalizeMeta (some f) m2 →
       getMetadata (twoInsertDistinct ns (some f) m1 m2 mx).1
           (batchBucketId (twoInsertDistinct ns (some f) m1 m2 mx).1
             (twoInsertDistinct ns (some f) m1 m2 mx).2.1) =
         [(f, normalizeMeta (some f) m1)] ∧
       getMetadata (twoInsertDistinct ns (some f) m1 m2 mx).1
           (batchBucketId (twoInsertDistinct ns (some f) m1 m2 mx).1
             (twoInsertDistinct ns (some f) m1 m2 mx).2.2) =
         [(f, normalizeMeta (some f) m2)]) ∧
    (∀ (f : String) (m : Measurement),
       normalizeMeta.lookupField m f = none →
       normalizeMeta (some f) m = BsonVal.null) ∧
    (∀ (f : String) (m : Measurement) (v : BsonVal),
       normalizeMeta.lookupField m f = some v →
       normalizeMeta (some f) m = v) ∧
    BsonVal.null ≠ BsonVal.emptyDoc ∧
    (∀ (c : Catalog) (bid : Nat), getMetadata (clearBucket c bid) bid = []) := by
  refine ⟨?_, ?_, ?_, ?_, by decide, ?_⟩
  · intro ns mf m1 m2 mx hmx hne
    have h1 : ¬ (mx ≤ 1) := by omega
    by_cases h2 : mx ≤ 2 <;>
      simp [twoInsertDistinct, insert, emptyCatalog, lookupOpen,
        findActiveBatch, findBatch, findBucket, setBatch, retireIfFull,
        bucketTotalCount, removeOpenKey, batchBucketId, hne, h1, h2,
        List.foldl]
  · intro ns f m1 m2 mx hmx hne
    have h1 : ¬ (mx ≤ 1) := by omega
    constructor <;>
      (by_cases h2 : mx ≤ 2 <;>
        simp [twoInsertDistinct, insert, emptyCatalog, lookupOpen,
          findActiveBatch, findBatch, findBucket, setBatch, retireIfFull,
          bucketTotalCount, removeOpenKey, batchBucketId, getMetadata,
          hne, h1, h2, List.foldl])
  · intro f m h
    show (match normalizeMeta.lookupField m f with
      | some v => v
      | none => BsonVal.null) = BsonVal.null
    rw [h]
  · intro f m v h
    show (match normalizeMeta.lookupField m f with
      | some v => v
      | none => BsonVal.null) = v
    rw [h]
  · intro c bid
    unfold getMetadata clearBucket
    rw [show ({ c with
        batches := c.batches.map fun b =>
          if b.bucketId = bid ∧ ¬ b.prepared ∧ ¬ b.finished then abortBatch b
          else b,
        buckets := removeBucket c.buckets bid,
        openBuckets := removeOpenBucket c.openBuckets bid } : Catalog).buckets
      = removeBucket c.buckets bid from rfl]
    rw [findBucket_removeBucket_self]

/-- Witness for C7: string metadata against empty-document metadata in the
same namespace. -/
theorem metadata_distinct_buckets_lookup_and_missing_witness :
    batchBucketId (twoInsertDistinct nsA mfMeta
        [("time", BsonVal.int 0), ("meta", BsonVal.str "123")]
        [("time", BsonVal.int 0), ("meta", BsonVal.emptyDoc)] 10).1
      (twoInsertDistinct nsA mfMeta
        [("time", BsonVal.int 0), ("meta", BsonVal.str "123")]
        [("time", BsonVal.int 0), ("meta", BsonVal.emptyDoc)] 10).2.1 ≠
    batchBucketId (twoInsertDistinct nsA mfMeta
        [("time", BsonVal.int 0), ("meta", BsonVal.str "123")]
        [("time", BsonVal.int 0), ("meta", BsonVal.emptyDoc)] 10).1
      (twoInsertDistinct nsA mfMeta
        [("time", BsonVal.int 0), ("meta", BsonVal.str "123")]
        [("time", BsonVal.int 0), ("meta", BsonVal.emptyDoc)] 10).2.2 :=
  metadata_distinct_buckets_lookup_and_missing.1 nsA mfMeta
    [("time", BsonVal.int 0), ("meta", BsonVal.str "123")]
    [("time", BsonVal.int 0), ("meta", BsonVal.emptyDoc)] 10
    (by decide) (by decide)

/-- C8: protocol violations are fatal programming-error assertions, not
recoverable errors (the embedding renders a fatal invariant failure as
`none`, while every legal call returns `some` state): `prepareCommit` on a
batch whose caller never successfully claimed commit rights dies, and
`finish` on a batch that was never prepared dies, in any catalog state. -/
theorem commit_protocol_violations_are_fatal :
    (∀ (c : Catalog) (bid : Nat) (b : WriteBatch),
       findBatch c.batches bid = some b → b.commitRights = false →
       prepareCommit c bid = none) ∧
    (∀ (c : Catalog) (bid : Nat) (b : WriteBatch) (res : CommitResult),
       findBatch c.batches bid = some b → b.prepared = false →
       finish c bid res = none) := by
  constructor
  · intro c bid b hfb hr
    unfold prepareCommit
    simp [hfb, hr]
  · intro c bid b res hfb hp
    unfold finish
    simp [hfb, hp]

/-- Witness for C8: preparing a freshly inserted batch without claiming
rights dies, and finishing a claimed-but-unprepared batch dies. -/
theorem commit_protocol_violations_are_fatal_witness :
    prepareCommit (insert emptyCatalog nsA mfMeta mTime 10).1 1 = none ∧
    finish claimedOneState 1 CommitResult.ok = none :=
  ⟨commit_protocol_violations_are_fatal.1
      (insert emptyCatalog nsA mfMeta mTime 10).1 1
      ((findBatch (insert emptyCatalog nsA mfMeta mTime 10).1.batches 1).get
        (by decide)) (by decide) (by decide),
   commit_protocol_violations_are_fatal.2 claimedOneState 1
      ((findBatch claimedOneState.batches 1).get (by decide))
      CommitResult.ok (by decide) (by decide)⟩

theorem foldClear_preserves_other (l : List Bucket) :
    ∀ (c : Catalog) (bid : Nat) (bucket : Bucket),
      (∀ b2 ∈ l, b2.bucketId ≠ bid) →
      findBucket c.buckets bid = some bucket →
      findBucket
        ((l.foldl (fun acc b => clearBucket acc b.bucketId) c)).buckets bid =
        some bucket := by
  induction l with
  | nil =>
    intro c bid bucket _ h
    exact h
  | cons x t ih =>
    intro c bid bucket hmem h
    have hx : x.bucketId ≠ bid := hmem x (List.mem_cons_self x t)
    have hstep : findBucket (clearBucket c x.bucketId).buckets bid =
        some bucket := findBucket_removeBucket_other h hx
    exact ih _ _ _ (fun b2 hb2 => hmem b2 (List.mem_cons_of_mem x hb2)) hstep

/-! Scenario states for the namespace- and database-scoped clear tests
(`ClearNamespaceBuckets`, `ClearDatabaseBuckets`). -/

/-- Namespace-clear trace: commit once into namespaces A and B, clear
namespace A, then commit once more into each. -/
def nsClearScene : (Catalog × Nat) × (Catalog × Nat) :=
  let a1 := insertOneAndCommit emptyCatalog nsA mfMeta mTime 10
  let b1 := insertOneAndCommit a1.1 nsB mfMeta mTime 10
  let cleared := clearNamespace b1.1 nsA
  let a2 := insertOneAndCommit cleared nsA mfMeta mTime 10
  let b2 := insertOneAndCommit a2.1 nsB mfMeta mTime 10
  (a2, b2)

/-- Database-clear trace: commit once into namespaces A, B (database A)
and C (database B), clear database A, then commit once more into each. -/
def dbClearScene : (Catalog × Nat) × (Catalog × Nat) × (Catalog × Nat) :=
  let a1 := insertOneAndCommit emptyCatalog nsA mfMeta mTime 10
  let b1 := insertOneAndCommit a1.1 nsB mfMeta mTime 10
  let c1 := insertOneAndCommit b1.1 nsC mfMeta mTime 10
  let cleared := clearDatabase c1.1 "dbA"
  let a2 := insertOneAndCommit cleared nsA mfMeta mTime 10
  let b2 := insertOneAndCommit a2.1 nsB mfMeta mTime 10
  let c2 := insertOneAndCommit b2.1 nsC mfMeta mTime 10
  (a2, b2, c2)

/-- C9: clear is exactly scoped to its target: a bucket of a namespace
different from the cleared namespace (or in a database different from the
cleared database, for the database form) survives the clear with exactly
its state, committed count included; and in the concrete traces the next
commit after a namespace clear observes previously-committed count 0 in
the cleared namespace while the untouched namespace observes 1, and after
a database clear both namespaces of the cleared database observe 0 while
the namespace in the other database observes 1. -/
theorem clear_scoped_to_target :
    (∀ (c : Catalog) (ns : NamespaceString) (bid : Nat) (bucket : Bucket),
       findBucket c.buckets bid = some bucket →
       (∀ b2 ∈ c.buckets, b2.ns = ns → b2.bucketId ≠ bid) →
       findBucket (clearNamespace c ns).buckets bid = some bucket ∧
       bucketCommitted (clearNamespace c ns) bid = bucketCommitted c bid) ∧
    (∀ (c : Catalog) (db : String) (bid : Nat) (bucket : Bucket),
       findBucket c.buckets bid = some bucket →
       (∀ b2 ∈ c.buckets, b2.ns.db = db → b2.bucketId ≠ bid) →
       findBucket (clearDatabase c db).buckets bid = some bucket ∧
       bucketCommitted (clearDatabase c db) bid = bucketCommitted c bid) ∧
    (nsClearScene.1.2 = 0 ∧ nsClearScene.2.2 = 1) ∧
    (dbClearScene.1.2 = 0 ∧ dbClearScene.2.1.2 = 0 ∧
     dbClearScene.2.2.2 = 1) := by
  refine ⟨?_, ?_, by decide, by decide⟩
  · intro c ns bid bucket hfb hother
    have hpres : findBucket (clearNamespace c ns).buckets bid =
        some bucket := by
      unfold clearNamespace
      refine foldClear_preserves_other _ _ _ _ ?_ hfb
      intro b2 hb2
      simp [List.mem_filter] at hb2
      exact hother b2 hb2.1 hb2.2
    refine ⟨hpres, ?_⟩
    unfold bucketCommitted
    rw [hpres, hfb]
  · intro c db bid bucket hfb hother
    have hpres : findBucket (clearDatabase c db).buckets bid =
        some bucket := by
      unfold clearDatabase
      refine foldClear_preserves_other _ _ _ _ ?_ hfb
      intro b2 hb2
      simp [List.mem_filter] at hb2
      exact hother b2 hb2.1 hb2.2
    refine ⟨hpres, ?_⟩
    unfold bucketCommitted
    rw [hpres, hfb]

/-- Witness for C9: the bucket of namespace B survives a clear of
namespace A with its committed count intact. -/
theorem clear_scoped_to_target_witness :
    findBucket (clearNamespace
        (insertOneAndCommit (insertOneAndCommit emptyCatalog nsA mfMeta
          mTime 10).1 nsB mfMeta mTime 10).1 nsA).buckets 2 =
      some ((findBucket (insertOneAndCommit (insertOneAndCommit emptyCatalog
        nsA mfMeta mTime 10).1 nsB mfMeta mTime 10).1.buckets 2).get
          (by decide)) ∧
    bucketCommitted (clearNamespace
        (insertOneAndCommit (insertOneAndCommit emptyCatalog nsA mfMeta
          mTime 10).1 nsB mfMeta mTime 10).1 nsA) 2 =
      bucketCommitted (insertOneAndCommit (insertOneAndCommit emptyCatalog
        nsA mfMeta mTime 10).1 nsB mfMeta mTime 10).1 2 :=
  clear_scoped_to_target.1
    (insertOneAndCommit (insertOneAndCommit emptyCatalog nsA mfMeta
      mTime 10).1 nsB mfMeta mTime 10).1 nsA 2
    ((findBucket (insertOneAndCommit (insertOneAndCommit emptyCatalog nsA
      mfMeta mTime 10).1 nsB mfMeta mTime 10).1.buckets 2).get (by decide))
    (by decide) (by decide)

/-- State after the first (prepared) batch finishes successfully while the
second batch is live. -/
def afterFinishFirst (ns : NamespaceString) (mf : Option String)
    (m1 m2 : Measurement) (mx : Nat) : Catalog :=
  (finish (secondInsert ns mf m1 m2 mx).1 (prepFirst ns mf m1 mx).2
    CommitResult.ok).getD emptyCatalog

/-- State after the second batch is claimed and prepared in turn. -/
def secondPrepared (ns : NamespaceString) (mf : Option String)
    (m1 m2 : Measurement) (mx : Nat) : Catalog :=
  (prepareCommit (claimCommitRights (afterFinishFirst ns mf m1 m2 mx)
    (secondInsert ns mf m1 m2 mx).2).1
    (secondInsert ns mf m1 m2 mx).2).getD emptyCatalog

/-- C10: an insert that arrives for a key whose current batch is prepared
but not yet finished returns a new, distinct batch targeting the very same
bucket; the first batch holds exactly one record (n = 1) and observed a
committed-count snapshot of 0, and after it finishes successfully the
second batch, once claimed and prepared, holds its own single record and
observes a committed-count snapshot equal to n. -/
theorem insert_between_prepare_and_finish (ns : NamespaceString)
    (mf : Option String) (m1 m2 : Measurement) (mx : Nat) (hmx : 3 ≤ mx)
    (hmeta : normalizeMeta mf m2 = normalizeMeta mf m1) :
    (secondInsert ns mf m1 m2 mx).2 ≠ (prepFirst ns mf m1 mx).2 ∧
    batchBucketId (secondInsert ns mf m1 m2 mx).1
        (secondInsert ns mf m1 m2 mx).2 =
      batchBucketId (secondInsert ns mf m1 m2 mx).1
        (prepFirst ns mf m1 mx).2 ∧
    batchSize (secondInsert ns mf m1 m2 mx).1 (prepFirst ns mf m1 mx).2 =
      1 ∧
    batchNumPrev (secondInsert ns mf m1 m2 mx).1 (prepFirst ns mf m1 mx).2 =
      0 ∧
    batchFinished (afterFinishFirst ns mf m1 m2 mx)
      (prepFirst ns mf m1 mx).2 = true ∧
    batchSize (secondPrepared ns mf m1 m2 mx)
      (secondInsert ns mf m1 m2 mx).2 = 1 ∧
    batchNumPrev (secondPrepared ns mf m1 m2 mx)
        (secondInsert ns mf m1 m2 mx).2 =
      batchSize (secondInsert ns mf m1 m2 mx).1 (prepFirst ns mf m1 mx).2 := by
  have h1 : ¬ (mx ≤ 1) := by omega
  have h2 : ¬ (mx ≤ 2) := by omega
  refine ⟨?_, ?_, ?_, ?_, ?_, ?_, ?_⟩ <;>
    simp [secondPrepared, afterFinishFirst, secondInsert, prepFirst, insert,
      emptyCatalog, lookupOpen, findActiveBatch, findBatch, findBucket,
      claimCommitRights, prepareCommit, finish, setBatch, setBucket,
      retireIfFull, bucketTotalCount, removeOpenKey, batchBucketId,
      batchSize, batchNumPrev, batchFinished, batchFieldNames,
      collectFields, hmeta, h1, h2, List.foldl]

/-- Witness for C10: the second batch's prepare observes a snapshot equal
to the first batch's record count at the concrete instance. -/
theorem insert_between_prepare_and_finish_witness :
    batchNumPrev (secondPrepared nsA mfMeta mTime mTime2 10)
        (secondInsert nsA mfMeta mTime mTime2 10).2 =
      batchSize (secondInsert nsA mfMeta mTime mTime2 10).1
        (prepFirst nsA mfMeta mTime 10).2 :=
  (insert_between_prepare_and_finish nsA mfMeta mTime mTime2 10
    (by decide) (by decide)).2.2.2.2.2.2

end BC
